import Mathlib

/-!
# Verification of the chip8rust interpreter

A shallow embedding of the CHIP-8 interpreter sources
(`src/instructions.rs`, `src/computerparts.rs`, `src/components.rs`,
`src/main.rs`) together with proofs about the embedded operations.

Modelling conventions:
* machine integers (`u8`, `u16`, `u128`) are `Nat` with explicit masking /
  `% 2^w` exactly where the Rust code wraps;
* byte arrays (`Vec<u8>`, RAM, the register file, the key array) are total
  functions `Nat → …`; a write is a pointwise functional update;
* a Rust panic (`unwrap` on an empty `Vec::pop`, i.e. stack underflow) is
  `Except.error EmuError.StackUnderflow`; all other paths are total;
* `rand::random()` is an extra input parameter of the cycle function;
* the human-readable `summary` trace strings built by the interpreter are
  omitted: they are presentation-only and no property concerns them.
-/

deriving instance DecidableEq for Except

/-- The fatal error of the machine: popping the empty call stack
(`Vec::pop()` returning `None` followed by `.unwrap()`). -/
inductive EmuError where
  | StackUnderflow
deriving DecidableEq, Repr

/-- Pointwise update of a `Nat`-indexed byte store; models
`RAM::set` / `Registers::set` (an array element assignment). -/
def setFn (f : Nat → Nat) (i v : Nat) : Nat → Nat :=
  fun j => if j = i then v else f j

/-- Pointwise update of one display cell; models
`self.display[x_pos][y_pos] = b` in `instructions.rs`. -/
def setPix (d : Nat → Nat → Bool) (x y : Nat) (b : Bool) : Nat → Nat → Bool :=
  fun a b2 => if a = x ∧ b2 = y then b else d a b2

/-- `byte_to_bools` (`instructions.rs:319-326` and `main.rs:459-465`):
bit `i` of the result is bit `7 - i` of the byte, most significant first. -/
def byte_to_bools (byte : Nat) : List Bool :=
  (List.range 8).map (fun i => ((byte &&& (1 <<< (7 - i))) >>> (7 - i)) == 1)

/-- The decoded instruction record of `instructions.rs:3-11`. -/
structure Instruction where
  opcode : Nat
  x : Nat
  y : Nat
  n : Nat
  byte : Nat
  addr : Nat
  full : Nat
deriving Repr

/-- `Instruction::from` (`instructions.rs:13-24`).  (`from` is a reserved
word in Lean, hence the name `decode`.) -/
def Instruction.decode (msb lsb : Nat) : Instruction :=
  let combined := (msb <<< 8) ||| lsb
  { full := combined
    opcode := (combined &&& 0xF000) >>> 12
    x := (combined &&& 0x0F00) >>> 8
    y := (combined &&& 0x00F0) >>> 4
    n := combined &&& 0x000F
    byte := lsb
    addr := combined &&& 0x0FFF }

namespace CP

/-- The decoded instruction record of `computerparts.rs:58-65`. -/
structure Instruction where
  opcode : Nat
  x : Nat
  y : Nat
  n : Nat
  nn : Nat
  nnn : Nat
deriving Repr

/-- `Instruction::from_bytes` (`computerparts.rs:67-76`). -/
def Instruction.from_bytes (highbyte lowbyte : Nat) : Instruction :=
  { opcode := (highbyte &&& 0xF0) >>> 4
    x := highbyte &&& 0x0F
    y := (lowbyte &&& 0xF0) >>> 4
    n := lowbyte &&& 0x0F
    nn := lowbyte
    nnn := ((highbyte <<< 8) ||| lowbyte) &&& 0x0FFF }

/-- `Stack` (`computerparts.rs:37-40`).  The head of the list models the
end of the `pointers` vector (the top of the stack). -/
structure Stack where
  pointers : List Nat
  size : Nat
deriving Repr

/-- `Stack::push` (`computerparts.rs:48-51`). -/
def Stack.push (s : Stack) (pointer : Nat) : Stack :=
  { pointers := pointer :: s.pointers, size := s.size + 1 }

/-- `Stack::pop` (`computerparts.rs:52-55`): `self.pointers.pop().unwrap()`
panics when the vector is empty; the panic is modelled as
`EmuError.StackUnderflow`.  (The preceding `self.size -= 1` either panics
in a debug build or wraps in release; either way the call never returns
normally on an empty stack.) -/
def Stack.pop (s : Stack) : Except EmuError (Nat × Stack) :=
  match s.pointers with
  | [] => .error .StackUnderflow
  | p :: rest => .ok (p, { pointers := rest, size := s.size - 1 })

/-- `Timers` (`computerparts.rs:101-105`); `delta` is the accumulated
elapsed time in milliseconds (`u128`). -/
structure Timers where
  delay : Nat
  sound : Nat
  delta : Nat
deriving DecidableEq, Repr

/-- `Timers::decrement` (`computerparts.rs:114-120`).  `durMillis` is
`dur.as_millis()`.  Note the source leaves `delta` at its accumulated
value: it is never reduced after the threshold test fires. -/
def Timers.decrement (t : Timers) (durMillis : Nat) : Timers :=
  let delta := t.delta + durMillis
  if 1000 / 60 ≤ delta then
    { delay := if t.delay = 0 then 0 else t.delay - 1
      sound := if t.sound = 0 then 0 else t.sound - 1
      delta := delta }
  else
    { t with delta := delta }

end CP

namespace Components

/-- `RAM_SIZE` (`components.rs:5`). -/
def RAM_SIZE : Nat := 4096

/-- `NUM_REGISTERS` (`components.rs:46`): the register file of
`components.rs`/`computerparts.rs` has 16 byte entries, indexed
`0x0..=0xF` by `Registers::get`/`Registers::set`. -/
def NUM_REGISTERS : Nat := 0x10

end Components

/-!
## The cycle engine (`instructions.rs`)

The `Emulator` struct itself is declared in the crate root of this
snapshot (not among the given source files); its fields are reconstructed
from their uses inside `Emulator::cycle`.  `stack_pointer` is the name the
source uses for the CHIP-8 index/address register (`I`).  `display` is
indexed `display[x][y]`, 64 columns by 32 rows, of `Copy` array rows.
-/
structure Emulator where
  ram : Nat → Nat
  registers : Nat → Nat
  program_counter : Nat
  call_stack : List Nat
  stack_pointer : Nat
  display : Nat → Nat → Bool
  keys : Nat → Bool
  timer : Nat
  sound_timer : Nat
  key_block : Nat

/-- The fetch step of `Emulator::cycle` (`instructions.rs:33-36`): decode
the two RAM bytes at the program counter. -/
def Emulator.fetched (e : Emulator) : Instruction :=
  Instruction.decode (e.ram e.program_counter) (e.ram (e.program_counter + 1))

/-- One iteration of the inner sprite loop (`instructions.rs:214-225`):
process bit `x_off` of the current sprite row.  The state is the pair
(display, collision). -/
def drawBitStep (x y y_off : Nat) (bools : List Bool) (st2 : (Nat → Nat → Bool) × Nat)
    (x_off : Nat) : (Nat → Nat → Bool) × Nat :=
  let x_pos := (x + x_off) % 64
  let y_pos := (y + y_off) % 32
  let bit := bools.getD x_off false
  if bit then
    if st2.1 x_pos y_pos then (setPix st2.1 x_pos y_pos false, 1)
    else (setPix st2.1 x_pos y_pos true, st2.2)
  else st2

/-- One iteration of the outer sprite loop (`instructions.rs:212-226`):
draw sprite row `y_off`.  The source first copies the `n` sprite bytes out
of RAM into a `bytes` buffer (`instructions.rs:209-211`), so row `y_off`
is the byte `ram[stack_pointer + y_off]`; the buffer is fused away here.
`enumerate().take(8)` over the 8-element `bools` array is the fold over
`List.range 8`, reading each element with `getD`. -/
def drawRowStep (x y sp : Nat) (ram : Nat → Nat) (st : (Nat → Nat → Bool) × Nat)
    (y_off : Nat) : (Nat → Nat → Bool) × Nat :=
  let bools := byte_to_bools (ram (sp + y_off))
  (List.range 8).foldl (drawBitStep x y y_off bools) st

/-- The whole sprite-draw loop nest of opcode `0xD`
(`instructions.rs:207-226`): rows `0..n`, `enumerate().take(n)` over the
`n`-element buffer being the fold over `List.range n`. -/
def drawSprite (x y sp n : Nat) (ram : Nat → Nat) (st0 : (Nat → Nat → Bool) × Nat) :
    (Nat → Nat → Bool) × Nat :=
  (List.range n).foldl (drawRowStep x y sp ram) st0

/-- `Emulator::cycle` (`instructions.rs:29-316`).  `random` is the byte
returned by `rand::random()` in the `0xC` arm.  The returned `Bool` is
`redraw`; the `summary` trace string is omitted.  The nested Rust
`match`es on `opcode` / `n` / `byte` are rendered as equality tests in
source order.  Arithmetic is `u8`/`u16` arithmetic written out on `Nat`:
`overflowing_add` is `(a + b) % 256` with overflow `256 ≤ a + b`,
`overflowing_sub` is `(a + 256 - b) % 256` with overflow `a < b` (for
byte-valued registers). -/
def Emulator.cycle (e0 : Emulator) (random : Nat) : Except EmuError (Emulator × Bool) :=
  let i := e0.fetched
  let e := { e0 with program_counter := e0.program_counter + 2 }
  let x_reg := i.x
  let y_reg := i.y
  let x := e.registers x_reg
  let y := e.registers y_reg
  let n := i.n
  let byte := i.byte
  let addr := i.addr
  if i.opcode = 0x0 then
    if byte = 0xE0 then
      -- CLS (`instructions.rs:52-57`): `for mut row in self.display` iterates
      -- over copies of the `Copy` array rows, so the `fill(false)` never
      -- writes back and the display is left unchanged.
      .ok (e, false)
    else if byte = 0xEE then
      -- RET: `self.call_stack.pop().unwrap()`
      match e.call_stack with
      | [] => .error .StackUnderflow
      | p :: rest => .ok ({ e with program_counter := p, call_stack := rest }, false)
    else .ok (e, false)
  else if i.opcode = 0x1 then
    .ok ({ e with program_counter := addr }, false)
  else if i.opcode = 0x2 then
    .ok ({ e with call_stack := e.program_counter :: e.call_stack, program_counter := addr }, false)
  else if i.opcode = 0x3 then
    .ok (if x = byte then { e with program_counter := e.program_counter + 2 } else e, false)
  else if i.opcode = 0x4 then
    .ok (if x ≠ byte then { e with program_counter := e.program_counter + 2 } else e, false)
  else if i.opcode = 0x5 then
    .ok (if x = y then { e with program_counter := e.program_counter + 2 } else e, false)
  else if i.opcode = 0x6 then
    .ok ({ e with registers := setFn e.registers x_reg byte }, false)
  else if i.opcode = 0x7 then
    .ok ({ e with registers := setFn e.registers x_reg ((x + byte) % 256) }, false)
  else if i.opcode = 0x8 then
    if n = 0x0 then
      .ok ({ e with registers := setFn e.registers x_reg y }, false)
    else if n = 0x1 then
      .ok ({ e with registers := setFn e.registers x_reg (x ||| y) }, false)
    else if n = 0x2 then
      .ok ({ e with registers := setFn e.registers x_reg (x &&& y) }, false)
    else if n = 0x3 then
      .ok ({ e with registers := setFn e.registers x_reg (x ^^^ y) }, false)
    else if n = 0x4 then
      -- ADD: flag register 0xF is written first, then the result
      .ok ({ e with registers := setFn (setFn e.registers 0xF (if 256 ≤ x + y then 1 else 0)) x_reg ((x + y) % 256) }, false)
    else if n = 0x5 then
      -- SUB x - y: flag = !overflow, written before the result
      .ok ({ e with registers := setFn (setFn e.registers 0xF (if x < y then 0 else 1)) x_reg ((x + 256 - y) % 256) }, false)
    else if n = 0x6 then
      -- SHR: flag = low bit of x, written before the result
      .ok ({ e with registers := setFn (setFn e.registers 0xF (x &&& 1)) x_reg (x >>> 1) }, false)
    else if n = 0x7 then
      -- SUB y - x: flag = !overflow, written before the result
      .ok ({ e with registers := setFn (setFn e.registers 0xF (if y < x then 0 else 1)) x_reg ((y + 256 - x) % 256) }, false)
    else if n = 0xE then
      -- SHL: flag = high bit of x, written before the result (u8 shift wraps)
      .ok ({ e with registers := setFn (setFn e.registers 0xF ((x &&& (1 <<< 7)) >>> 7)) x_reg ((x <<< 1) % 256) }, false)
    else .ok (e, false)
  else if i.opcode = 0x9 then
    .ok (if x ≠ y then { e with program_counter := e.program_counter + 2 } else e, false)
  else if i.opcode = 0xA then
    .ok ({ e with stack_pointer := addr }, false)
  else if i.opcode = 0xB then
    -- the source writes the jump target into the index register (`instructions.rs:194`)
    .ok ({ e with stack_pointer := addr + e.registers 0 }, false)
  else if i.opcode = 0xC then
    .ok ({ e with registers := setFn e.registers x_reg (random &&& byte) }, false)
  else if i.opcode = 0xD then
    let st := drawSprite x y e.stack_pointer n e.ram (e.display, 0)
    .ok ({ e with display := st.1, registers := setFn e.registers 0xF st.2 }, true)
  else if i.opcode = 0xE then
    if byte = 0x9E then
      .ok (if e.keys x then { e with program_counter := e.program_counter + 2 } else e, false)
    else if byte = 0xA1 then
      .ok (if ¬ e.keys x then { e with program_counter := e.program_counter + 2 } else e, false)
    else .ok (e, false)
  else if i.opcode = 0xF then
    if byte = 0x07 then
      .ok ({ e with registers := setFn e.registers x_reg e.timer }, false)
    else if byte = 0x0A then
      .ok ({ e with key_block := x_reg }, false)
    else if byte = 0x15 then
      .ok ({ e with timer := x }, false)
    else if byte = 0x18 then
      .ok ({ e with sound_timer := x }, false)
    else if byte = 0x1E then
      .ok ({ e with stack_pointer := e.stack_pointer + x }, false)
    else if byte = 0x29 then
      .ok ({ e with stack_pointer := x * 5 }, false)
    else if byte = 0x33 then
      let ram3 := setFn (setFn (setFn e.ram e.stack_pointer (x / 100)) (e.stack_pointer + 1) (x / 10 % 10)) (e.stack_pointer + 2) (x % 10)
      .ok ({ e with ram := ram3 }, false)
    else if byte = 0x55 then
      -- STORE R0..=RX (`instructions.rs:289-296`)
      let ram2 := (List.range (x_reg + 1)).foldl (fun r j => setFn r (e.stack_pointer + j) (e.registers j)) e.ram
      .ok ({ e with ram := ram2 }, false)
    else if byte = 0x65 then
      -- LOAD R0..=RX (`instructions.rs:297-304`)
      let regs2 := (List.range (x_reg + 1)).foldl (fun g j => setFn g j (e.ram (e.stack_pointer + j))) e.registers
      .ok ({ e with registers := regs2 }, false)
    else .ok (e, false)
  else .ok (e, false)

/-!
## The event-loop interpreter (`main.rs`)

The older snapshot in `main.rs` keeps the machine state in loose locals
captured by the `event_loop.run` closure.  `MainLoop.step` models the
instruction-processing portion of one loop-body invocation
(`main.rs:180-407`): the key-block check followed by fetch / decode /
dispatch.  The timer bookkeeping (`main.rs:170-178`) and the
window/input/audio glue are orthogonal and not part of this function.
-/
namespace MainLoop

/-- `SCR_WIDTH` (`main.rs:17`). -/
def SCR_WIDTH : Nat := 64
/-- `SCR_HEIGHT` (`main.rs:18`). -/
def SCR_HEIGHT : Nat := 32
/-- `CLASSIC_BITSHIFT` (`main.rs:21`). -/
def CLASSIC_BITSHIFT : Bool := false
/-- `CLASSIC_JUMP` (`main.rs:22`). -/
def CLASSIC_JUMP : Bool := false

/-- `Display` (`main.rs:76-78`): pixels arranged linearly left-right
top-bottom; index `y * SCR_WIDTH + x`. -/
structure Display where
  pixels : Nat → Bool

/-- `Display::clear` (`main.rs:85-87`). -/
def Display.clear (_d : Display) : Display := ⟨fun _ => false⟩

/-- `Display::flip_pixel` (`main.rs:93-99`): out-of-range indices are left
untouched and report `false`; otherwise the pixel is toggled and the
function returns the negation of the new value, i.e. the old value. -/
def Display.flip_pixel (d : Display) (x y : Nat) : Display × Bool :=
  if SCR_WIDTH * SCR_HEIGHT ≤ y * SCR_WIDTH + x then (d, false)
  else
    let idx := y * SCR_WIDTH + x
    let d2 : Display := ⟨fun i => if i = idx then ! d.pixels idx else d.pixels i⟩
    (d2, ! d2.pixels idx)

/-- `KeyBlock` (`main.rs:108-111`). -/
structure KeyBlock where
  blocked : Bool
  register : Nat

/-- The loose locals of the event loop (`main.rs:141-162`). -/
structure MainState where
  display : Display
  ram : Nat → Nat
  callstack : List Nat
  index_register : Nat
  registers : Nat → Nat
  program_counter : Nat
  delay_timer : Nat
  sound_timer : Nat
  keys_pressed : Nat → Bool

/-- One loop-body invocation, instruction phase (`main.rs:180-407`).
`random` models `rand::random()` in the `0xC` arm.

`blocked` is a local of the closure body, re-created — and therefore reset
to not-blocked — on every invocation (`main.rs:182-185`); consequently the
first branch is dead and the write to `blocked` in the `0xF`/`0x0A` arm
(`main.rs:379-382`) never survives to the next invocation. -/
def step (s0 : MainState) (random : Nat) : Except EmuError MainState :=
  let blocked : KeyBlock := { blocked := false, register := 0 }
  if blocked.blocked then
    -- dead branch, kept to mirror `main.rs:186-193`: latch the first
    -- pressed key (ascending scan) into the blocked register
    match (List.range 0x10).find? (fun j => s0.keys_pressed j) with
    | some j => .ok { s0 with registers := setFn s0.registers blocked.register j }
    | none => .ok s0
  else
    let current_instruction := (s0.ram s0.program_counter <<< 8) ||| s0.ram (s0.program_counter + 1)
    let opcode := (current_instruction &&& 0xF000) >>> 12
    let n_x := (current_instruction &&& 0x0F00) >>> 8
    let n_y := (current_instruction &&& 0x00F0) >>> 4
    let n_n := current_instruction &&& 0x000F
    let n_nn := current_instruction &&& 0x00FF
    let n_nnn := current_instruction &&& 0x0FFF
    let s := { s0 with program_counter := s0.program_counter + 2 }
    if opcode = 0x0 then
      let s1 := if n_nnn = 0x0E0 then { s with display := s.display.clear } else s
      if n_nnn = 0x0EE then
        match s1.callstack with
        | [] => .error .StackUnderflow
        | p :: rest => .ok { s1 with program_counter := p, callstack := rest }
      else .ok s1
    else if opcode = 0x1 then .ok { s with program_counter := n_nnn }
    else if opcode = 0x2 then
      .ok { s with callstack := s.program_counter :: s.callstack, program_counter := n_nnn }
    else if opcode = 0x3 then
      .ok (if s.registers n_x = n_nn then { s with program_counter := s.program_counter + 2 } else s)
    else if opcode = 0x4 then
      .ok (if s.registers n_x ≠ n_nn then { s with program_counter := s.program_counter + 2 } else s)
    else if opcode = 0x5 then
      .ok (if s.registers n_y = s.registers n_x then { s with program_counter := s.program_counter + 2 } else s)
    else if opcode = 0x6 then .ok { s with registers := setFn s.registers n_x n_nn }
    else if opcode = 0x7 then
      .ok { s with registers := setFn s.registers n_x ((s.registers n_x + n_nn) &&& 0xFF) }
    else if opcode = 0x8 then
      -- ALU (`main.rs:247-313`): the arms update register 0xF in place and
      -- the match value is then assigned to register n_x
      let rx := s.registers n_x
      let ry := s.registers n_y
      let fr : (Nat → Nat) × Nat :=
        if n_n = 0x0 then (s.registers, ry)
        else if n_n = 0x1 then (s.registers, rx ||| ry)
        else if n_n = 0x2 then (s.registers, rx &&& ry)
        else if n_n = 0x3 then (s.registers, rx ^^^ ry)
        else if n_n = 0x4 then
          (setFn s.registers 0xF (if 255 < rx + ry then 1 else 0), (rx + ry) &&& 0xFF)
        else if n_n = 0x5 then
          -- `i16` subtraction then `& 0xFF`: for byte values (rx + 256 - ry) % 256;
          -- flag from the strict comparison `rx > ry` (`main.rs:275`)
          (setFn s.registers 0xF (if ry < rx then 1 else 0), (rx + 256 - ry) % 256)
        else if n_n = 0x6 then
          (setFn s.registers 0xF ((if CLASSIC_BITSHIFT then ry else rx) &&& 0x1),
            if CLASSIC_BITSHIFT then ry >>> 1 else (rx >>> 1) &&& 0xFF)
        else if n_n = 0x7 then
          -- flag from the strict comparison `ry > rx` (`main.rs:295`)
          (setFn s.registers 0xF (if rx < ry then 1 else 0), (ry + 256 - rx) % 256)
        else if n_n = 0xE then
          (setFn s.registers 0xF ((if CLASSIC_BITSHIFT then ry else rx) >>> 7 &&& 1),
            if CLASSIC_BITSHIFT then (ry <<< 1) % 256 else (rx <<< 1) % 256)
        else (s.registers, rx)
      .ok { s with registers := setFn fr.1 n_x fr.2 }
    else if opcode = 0x9 then
      .ok (if s.registers n_y ≠ s.registers n_x then { s with program_counter := s.program_counter + 2 } else s)
    else if opcode = 0xA then .ok { s with index_register := n_nnn }
    else if opcode = 0xB then
      .ok { s with program_counter := if CLASSIC_JUMP then n_nnn + s.registers 0 else n_nnn + s.registers n_x }
    else if opcode = 0xC then
      .ok { s with registers := setFn s.registers n_x (random &&& n_nn) }
    else if opcode = 0xD then
      -- draw (`main.rs:334-350`): the base coordinate is reduced modulo the
      -- screen size but the per-bit offsets are not wrapped; `flip_pixel`
      -- clips only when the linear index runs past the whole buffer
      let x_coord := s.registers n_x % 64
      let y_coord := s.registers n_y % 32
      let res := (List.range n_n).foldl (fun (acc : Display × Bool) i =>
        let bytebools := byte_to_bools (s.ram (s.index_register + i))
        (List.range 8).foldl (fun acc2 xx =>
          if bytebools.getD xx false then
            let fp := acc2.1.flip_pixel (xx + x_coord) (i + y_coord)
            (fp.1, if acc2.2 then acc2.2 else fp.2)
          else acc2) acc) (s.display, false)
      .ok { s with display := res.1, registers := setFn s.registers 0xF (if res.2 then 1 else 0) }
    else if opcode = 0xE then
      if n_nn = 0x9E then
        .ok (if s.keys_pressed n_x then { s with program_counter := s.program_counter + 2 } else s)
      else if n_nn = 0xA1 then
        .ok (if ¬ s.keys_pressed n_x then { s with program_counter := s.program_counter + 2 } else s)
      else .ok s
    else if opcode = 0xF then
      if n_nn = 0x07 then .ok { s with registers := setFn s.registers n_x s.delay_timer }
      else if n_nn = 0x15 then .ok { s with delay_timer := s.registers n_x }
      else if n_nn = 0x18 then .ok { s with sound_timer := s.registers n_x }
      else if n_nn = 0x1E then .ok { s with index_register := s.index_register + s.registers n_x }
      else if n_nn = 0x0A then
        -- sets only the loop-local `blocked` (`main.rs:379-382`), which does
        -- not survive this invocation: the state is returned unchanged
        .ok s
      else if n_nn = 0x29 then .ok { s with index_register := s.registers n_x * 5 }
      else if n_nn = 0x33 then
        let ram3 := setFn (setFn (setFn s.ram s.index_register (s.registers n_x / 100)) (s.index_register + 1) (s.registers n_x / 10 % 10)) (s.index_register + 2) (s.registers n_x % 10)
        .ok { s with ram := ram3 }
      else if n_nn = 0x55 then
        -- the source iterates `0..0xF` (registers 0-14, `x` ignored)
        let ram2 := (List.range 0xF).foldl (fun r j => setFn r (s.index_register + j) (s.registers j)) s.ram
        .ok { s with ram := ram2 }
      else if n_nn = 0x65 then
        let regs2 := (List.range 0xF).foldl (fun g j => setFn g j (s.ram (s.index_register + j))) s.registers
        .ok { s with registers := regs2 }
      else .ok s
    else .ok s

end MainLoop

/-- First draw of the C1 scenario: an 8x1 all-set sprite (`0xFF`) drawn at
(0,0) on a cleared display; a second copy of the same instruction follows. -/
def c1emuA : Emulator := Emulator.mk
  (fun a => if a = 0x200 then 0xD0 else if a = 0x201 then 0x11 else
    if a = 0x202 then 0xD0 else if a = 0x203 then 0x11 else
    if a = 0x300 then 0xFF else 0)
  (fun _ => 0) 0x200 [] 0x300 (fun _ _ => false) (fun _ => false) 0 0 0x10

/-- Second draw of the C1 scenario: the same machine except the top-left
8x1 row of the display is already on (the result of the first draw). -/
def c1emuB : Emulator := Emulator.mk
  (fun a => if a = 0x200 then 0xD0 else if a = 0x201 then 0x11 else
    if a = 0x202 then 0xD0 else if a = 0x203 then 0x11 else
    if a = 0x300 then 0xFF else 0)
  (fun _ => 0) 0x200 [] 0x300 (fun a b => b == 0 && Nat.ble a 7) (fun _ => false) 0 0 0x10

/-- C6 scenario: draw one row of byte `0x96` (`0b10010110`) at x = 60,
y = 0 on a cleared display. -/
def c6emu : Emulator := Emulator.mk
  (fun a => if a = 0x200 then 0xD0 else if a = 0x201 then 0x11 else
    if a = 0x300 then 0x96 else 0)
  (fun r => if r = 0 then 60 else 0) 0x200 [] 0x300 (fun _ _ => false) (fun _ => false) 0 0 0x10

/-- C5 store scenario: `0xF255` (store registers 0..=2) with the address
register at `0x300` and registers 11, 22, 33, 44, ... -/
def c5emuS : Emulator := Emulator.mk
  (fun a => if a = 0x200 then 0xF2 else if a = 0x201 then 0x55 else 0)
  (fun r => if r = 0 then 11 else if r = 1 then 22 else if r = 2 then 33 else
    if r = 3 then 44 else 0)
  0x200 [] 0x300 (fun _ _ => false) (fun _ => false) 0 0 0x10

/-- C5 load scenario: `0xF165` (load registers 0..=1) with the address
register at `0x300`, RAM holding 7, 8 there, and register 2 at 99. -/
def c5emuL : Emulator := Emulator.mk
  (fun a => if a = 0x200 then 0xF1 else if a = 0x201 then 0x65 else
    if a = 0x300 then 7 else if a = 0x301 then 8 else 0)
  (fun r => if r = 2 then 99 else 0)
  0x200 [] 0x300 (fun _ _ => false) (fun _ => false) 0 0 0x10

/-- C4 scenario A: `0x8015` (SUB R0-R1) with registers 5 and 3. -/
def c4emuA : Emulator := Emulator.mk
  (fun a => if a = 0x200 then 0x80 else if a = 0x201 then 0x15 else 0)
  (fun r => if r = 0 then 5 else if r = 1 then 3 else 0)
  0x200 [] 0 (fun _ _ => false) (fun _ => false) 0 0 0x10

/-- C4 scenario B: `0x8015` (SUB R0-R1) with registers 3 and 5. -/
def c4emuB : Emulator := Emulator.mk
  (fun a => if a = 0x200 then 0x80 else if a = 0x201 then 0x15 else 0)
  (fun r => if r = 0 then 3 else if r = 1 then 5 else 0)
  0x200 [] 0 (fun _ _ => false) (fun _ => false) 0 0 0x10

/-- C10 scenario: `0x8F14` (ADD RF+R1) with register F at 200 and
register 1 at 100: the wrapped sum 44 lands in register F, even though
the add overflowed (flag value 1 is overwritten by the result). -/
def c10emu : Emulator := Emulator.mk
  (fun a => if a = 0x200 then 0x8F else if a = 0x201 then 0x14 else 0)
  (fun r => if r = 0xF then 200 else if r = 1 then 100 else 0)
  0x200 [] 0 (fun _ _ => false) (fun _ => false) 0 0 0x10

/-- C8 scenario: `0x00EE` (RET) with an empty call stack. -/
def c8emu : Emulator := Emulator.mk
  (fun a => if a = 0x200 then 0x00 else if a = 0x201 then 0xEE else 0)
  (fun _ => 0) 0x200 [] 0 (fun _ _ => false) (fun _ => false) 0 0 0x10

/-- C2 failing input: `0xF00A` (key-block into register 0) at `0x200`
followed by `0x6105` (load 5 into register 1), program counter `0x200`,
no key held. -/
def c2state : MainLoop.MainState := MainLoop.MainState.mk
  ⟨fun _ => false⟩
  (fun a => if a = 0x200 then 0xF0 else if a = 0x201 then 0x0A else
    if a = 0x202 then 0x61 else if a = 0x203 then 0x05 else 0)
  [] 0 (fun _ => 0) 0x200 0 0 (fun _ => false)

/-- Bounded existentials over `Nat` are decidable (via `List.range`). -/
instance decidableExistsLt {p : Nat → Prop} [DecidablePred p] {N : Nat} :
    Decidable (∃ m, m < N ∧ p m) :=
  decidable_of_iff (∃ m ∈ List.range N, p m) (by simp)

section DecoderLemmas

/-- Right shift distributes over bitwise and. -/
lemma land_shiftRight (a b k : Nat) : (a &&& b) >>> k = (a >>> k) &&& (b >>> k) :=
  Nat.eq_of_testBit_eq fun j => by
    simp [Nat.testBit_shiftRight, Nat.testBit_and]

/-- Extracting a nibble: mask with `0xF <<< k` then shift right by `k`. -/
lemma and_nibble_shift (c k : Nat) : (c &&& (15 <<< k)) >>> k = c / 2 ^ k % 16 := by
  rw [land_shiftRight, Nat.shiftLeft_shiftRight]
  have h15 : (15 : Nat) = 2 ^ 4 - 1 := by norm_num
  rw [h15, Nat.and_pow_two_sub_one_eq_mod, Nat.shiftRight_eq_div_pow]

/-- The big-endian combination of two bytes is `msb * 256 + lsb`. -/
lemma combined_eq (msb lsb : Nat) (hl : lsb < 256) :
    (msb <<< 8) ||| lsb = msb * 256 + lsb := by
  have h : 2 ^ 8 * msb + lsb = 2 ^ 8 * msb ||| lsb :=
    Nat.mul_add_lt_is_or (by norm_num [hl]) msb
  rw [Nat.shiftLeft_eq]
  calc msb * 2 ^ 8 ||| lsb = 2 ^ 8 * msb ||| lsb := by rw [Nat.mul_comm]
    _ = 2 ^ 8 * msb + lsb := h.symm
    _ = msb * 256 + lsb := by ring

/-- All fields of `Instruction.decode`, in division/remainder form. -/
lemma decode_fields (msb lsb : Nat) :
    (Instruction.decode msb lsb).opcode = ((msb <<< 8) ||| lsb) / 4096 % 16
    ∧ (Instruction.decode msb lsb).x = ((msb <<< 8) ||| lsb) / 256 % 16
    ∧ (Instruction.decode msb lsb).y = ((msb <<< 8) ||| lsb) / 16 % 16
    ∧ (Instruction.decode msb lsb).n = ((msb <<< 8) ||| lsb) % 16
    ∧ (Instruction.decode msb lsb).byte = lsb
    ∧ (Instruction.decode msb lsb).addr = ((msb <<< 8) ||| lsb) % 4096
    ∧ (Instruction.decode msb lsb).full = (msb <<< 8) ||| lsb := by
  have h12 := and_nibble_shift ((msb <<< 8) ||| lsb) 12
  have h8 := and_nibble_shift ((msb <<< 8) ||| lsb) 8
  have h4 := and_nibble_shift ((msb <<< 8) ||| lsb) 4
  have hn : ((msb <<< 8) ||| lsb) &&& 0x000F = ((msb <<< 8) ||| lsb) % 16 := by
    simpa using Nat.and_pow_two_sub_one_eq_mod ((msb <<< 8) ||| lsb) 4
  have ha : ((msb <<< 8) ||| lsb) &&& 0x0FFF = ((msb <<< 8) ||| lsb) % 4096 := by
    simpa using Nat.and_pow_two_sub_one_eq_mod ((msb <<< 8) ||| lsb) 12
  norm_num at h12 h8 h4
  exact ⟨h12, h8, h4, hn, rfl, ha, rfl⟩

/-- All fields of `CP.Instruction.from_bytes`, in division/remainder form. -/
lemma from_bytes_fields (hb lb : Nat) :
    (CP.Instruction.from_bytes hb lb).opcode = hb / 16 % 16
    ∧ (CP.Instruction.from_bytes hb lb).x = hb % 16
    ∧ (CP.Instruction.from_bytes hb lb).y = lb / 16 % 16
    ∧ (CP.Instruction.from_bytes hb lb).n = lb % 16
    ∧ (CP.Instruction.from_bytes hb lb).nn = lb
    ∧ (CP.Instruction.from_bytes hb lb).nnn = ((hb <<< 8) ||| lb) % 4096 := by
  have hop := and_nibble_shift hb 4
  have hy := and_nibble_shift lb 4
  have hx : hb &&& 0x0F = hb % 16 := by
    simpa using Nat.and_pow_two_sub_one_eq_mod hb 4
  have hn : lb &&& 0x0F = lb % 16 := by
    simpa using Nat.and_pow_two_sub_one_eq_mod lb 4
  have ha : ((hb <<< 8) ||| lb) &&& 0x0FFF = ((hb <<< 8) ||| lb) % 4096 := by
    simpa using Nat.and_pow_two_sub_one_eq_mod ((hb <<< 8) ||| lb) 12
  norm_num at hop hy
  exact ⟨hop, hx, hy, hn, rfl, ha⟩

end DecoderLemmas


section DrawLemmas

/-- Reading an untouched cell of an updated display. -/
lemma setPix_other (d : Nat → Nat → Bool) (x y : Nat) (b : Bool) (a c : Nat)
    (h : ¬(a = x ∧ c = y)) : setPix d x y b a c = d a c := if_neg h

/-- Reading the updated cell of an updated display. -/
lemma setPix_same (d : Nat → Nat → Bool) (x y : Nat) (b : Bool) :
    setPix d x y b x y = b := if_pos ⟨rfl, rfl⟩

/-- A bit step leaves every cell other than its own target unchanged. -/
lemma drawBitStep_fst (x y y_off : Nat) (bools : List Bool)
    (st2 : (Nat → Nat → Bool) × Nat) (x_off a b : Nat)
    (h : ¬(bools.getD x_off false = true ∧ (x + x_off) % 64 = a ∧ (y + y_off) % 32 = b)) :
    (drawBitStep x y y_off bools st2 x_off).1 a b = st2.1 a b := by
  unfold drawBitStep
  cases hbit : bools.getD x_off false with
  | false => rfl
  | true =>
    have hne : ¬(a = (x + x_off) % 64 ∧ b = (y + y_off) % 32) :=
      fun hc => h ⟨hbit, hc.1.symm, hc.2.symm⟩
    cases hold : st2.1 ((x + x_off) % 64) ((y + y_off) % 32) with
    | true =>
      simp only [hold, if_true]
      exact setPix_other _ _ _ _ _ _ hne
    | false =>
      simp only [hold, Bool.false_eq_true, if_false]
      exact setPix_other _ _ _ _ _ _ hne

/-- A set bit toggles its own target cell. -/
lemma drawBitStep_toggle (x y y_off : Nat) (bools : List Bool)
    (st2 : (Nat → Nat → Bool) × Nat) (x_off : Nat)
    (hb : bools.getD x_off false = true) :
    (drawBitStep x y y_off bools st2 x_off).1 ((x + x_off) % 64) ((y + y_off) % 32)
      = ! st2.1 ((x + x_off) % 64) ((y + y_off) % 32) := by
  unfold drawBitStep
  rw [hb]
  cases hold : st2.1 ((x + x_off) % 64) ((y + y_off) % 32) with
  | true => simp [hold, setPix_same]
  | false => simp [hold, setPix_same]

/-- The collision accumulator after one bit step. -/
lemma drawBitStep_snd (x y y_off : Nat) (bools : List Bool)
    (st2 : (Nat → Nat → Bool) × Nat) (x_off : Nat) :
    ((drawBitStep x y y_off bools st2 x_off).2 = 1 ↔
      st2.2 = 1 ∨ (bools.getD x_off false = true ∧
        st2.1 ((x + x_off) % 64) ((y + y_off) % 32) = true)) := by
  unfold drawBitStep
  cases hbit : bools.getD x_off false with
  | false => simp
  | true =>
    cases hold : st2.1 ((x + x_off) % 64) ((y + y_off) % 32) with
    | true => simp [hold]
    | false => simp [hold]

/-- A bit step either keeps the collision accumulator or sets it to `1`. -/
lemma drawBitStep_snd_cases (x y y_off : Nat) (bools : List Bool)
    (st2 : (Nat → Nat → Bool) × Nat) (x_off : Nat) :
    (drawBitStep x y y_off bools st2 x_off).2 = st2.2 ∨
      (drawBitStep x y y_off bools st2 x_off).2 = 1 := by
  unfold drawBitStep
  cases hbit : bools.getD x_off false with
  | false => simp
  | true =>
    cases hold : st2.1 ((x + x_off) % 64) ((y + y_off) % 32) with
    | true => simp [hold]
    | false => simp [hold]

end DrawLemmas

/-- Invariants of the inner sprite-row fold: cells away from the row's
set bits are untouched, each set bit toggles its (wrapped) target exactly
once, and the collision accumulator becomes `1` exactly when some set bit
found its target cell on.  Requires `k ≤ 64` so that the wrapped columns
of distinct bit indices are distinct. -/
lemma drawRow_spec (x y y_off : Nat) (bools : List Bool) :
    ∀ (k : Nat), k ≤ 64 → ∀ (d : Nat → Nat → Bool) (c : Nat),
      (∀ a b, (∀ xo, xo < k → ¬(bools.getD xo false = true ∧ (x + xo) % 64 = a ∧ (y + y_off) % 32 = b)) →
        ((List.range k).foldl (drawBitStep x y y_off bools) (d, c)).1 a b = d a b)
      ∧ (∀ xo, xo < k → bools.getD xo false = true →
        ((List.range k).foldl (drawBitStep x y y_off bools) (d, c)).1 ((x + xo) % 64) ((y + y_off) % 32)
          = ! d ((x + xo) % 64) ((y + y_off) % 32))
      ∧ (((List.range k).foldl (drawBitStep x y y_off bools) (d, c)).2 = 1 ↔
          c = 1 ∨ ∃ xo, xo < k ∧ bools.getD xo false = true ∧ d ((x + xo) % 64) ((y + y_off) % 32) = true)
      ∧ (((List.range k).foldl (drawBitStep x y y_off bools) (d, c)).2 = c
          ∨ ((List.range k).foldl (drawBitStep x y y_off bools) (d, c)).2 = 1) := by
  intro k
  induction k with
  | zero =>
    intro _ d c
    exact ⟨fun a b _ => rfl, fun xo hxo => absurd hxo (by omega), by simp, Or.inl rfl⟩
  | succ k ih =>
    intro hk d c
    obtain ⟨ih1, ih2, ih3, ih4⟩ := ih (by omega) d c
    have hsplit : (List.range (k+1)).foldl (drawBitStep x y y_off bools) (d, c)
        = drawBitStep x y y_off bools ((List.range k).foldl (drawBitStep x y y_off bools) (d, c)) k := by
      rw [List.range_succ, List.foldl_append, List.foldl_cons, List.foldl_nil]
    set F := (List.range k).foldl (drawBitStep x y y_off bools) (d, c) with hF
    rw [hsplit]
    have hdist : ∀ xo, xo < k → (x + xo) % 64 ≠ (x + k) % 64 := by
      intro xo hxo
      have h64 : k < 64 := by omega
      omega
    refine ⟨?_, ?_, ?_, ?_⟩
    · intro a b hun
      rw [drawBitStep_fst x y y_off bools F k a b (hun k (by omega))]
      exact ih1 a b (fun xo hxo => hun xo (by omega))
    · intro xo hxo hbit
      rcases Nat.lt_succ_iff_lt_or_eq.mp hxo with hlt | heq
      · have hne : ¬(bools.getD k false = true ∧ (x + k) % 64 = (x + xo) % 64 ∧
            (y + y_off) % 32 = (y + y_off) % 32) :=
          fun hc => hdist xo hlt hc.2.1.symm
        rw [drawBitStep_fst x y y_off bools F k _ _ hne]
        exact ih2 xo hlt hbit
      · subst heq
        rw [drawBitStep_toggle x y y_off bools F xo hbit]
        congr 1
        exact ih1 _ _ (fun xo' hxo' hc => hdist xo' hxo' hc.2.1)
    · rw [drawBitStep_snd]
      have hFcell : F.1 ((x + k) % 64) ((y + y_off) % 32) = d ((x + k) % 64) ((y + y_off) % 32) :=
        ih1 _ _ (fun xo' hxo' hc => hdist xo' hxo' hc.2.1)
      rw [hFcell, ih3]
      constructor
      · rintro ((hc | ⟨xo, hxo, hb2, hd2⟩) | ⟨hbk, hdk⟩)
        · exact Or.inl hc
        · exact Or.inr ⟨xo, by omega, hb2, hd2⟩
        · exact Or.inr ⟨k, by omega, hbk, hdk⟩
      · rintro (hc | ⟨xo, hxo, hb2, hd2⟩)
        · exact Or.inl (Or.inl hc)
        · rcases Nat.lt_succ_iff_lt_or_eq.mp hxo with hlt | heq
          · exact Or.inl (Or.inr ⟨xo, hlt, hb2, hd2⟩)
          · subst heq
            exact Or.inr ⟨hb2, hd2⟩
    · rcases drawBitStep_snd_cases x y y_off bools F k with h | h
      · rw [h]; exact ih4
      · rw [h]; exact Or.inr rfl

/-- Invariants of the whole sprite-draw loop nest, relative to the
pre-draw display `d`: cells away from the wrapped footprint of the set
sprite bits are unchanged, each set bit toggles its wrapped target, and
the collision output is `1` exactly when some set bit had its target on
in `d`.  Requires `m ≤ 32` (true of every draw: `n` is a nibble) so that
distinct rows land on distinct wrapped lines. -/
lemma drawSprite_fold_spec (x y sp : Nat) (ram : Nat → Nat) :
    ∀ (m : Nat), m ≤ 32 → ∀ (d : Nat → Nat → Bool) (c : Nat),
      (∀ a b, (∀ yo, yo < m → ∀ xo, xo < 8 →
          ¬((byte_to_bools (ram (sp + yo))).getD xo false = true ∧ (x + xo) % 64 = a ∧ (y + yo) % 32 = b)) →
        ((List.range m).foldl (drawRowStep x y sp ram) (d, c)).1 a b = d a b)
      ∧ (∀ yo, yo < m → ∀ xo, xo < 8 → (byte_to_bools (ram (sp + yo))).getD xo false = true →
        ((List.range m).foldl (drawRowStep x y sp ram) (d, c)).1 ((x + xo) % 64) ((y + yo) % 32)
          = ! d ((x + xo) % 64) ((y + yo) % 32))
      ∧ (((List.range m).foldl (drawRowStep x y sp ram) (d, c)).2 = 1 ↔
          c = 1 ∨ ∃ yo, yo < m ∧ ∃ xo, xo < 8 ∧ (byte_to_bools (ram (sp + yo))).getD xo false = true ∧
            d ((x + xo) % 64) ((y + yo) % 32) = true)
      ∧ (((List.range m).foldl (drawRowStep x y sp ram) (d, c)).2 = c
          ∨ ((List.range m).foldl (drawRowStep x y sp ram) (d, c)).2 = 1) := by
  intro m
  induction m with
  | zero =>
    intro _ d c
    exact ⟨fun a b _ => rfl, fun yo hyo => absurd hyo (by omega), by simp, Or.inl rfl⟩
  | succ m ih =>
    intro hm d c
    obtain ⟨ih1, ih2, ih3, ih4⟩ := ih (by omega) d c
    have hsplit : (List.range (m+1)).foldl (drawRowStep x y sp ram) (d, c)
        = drawRowStep x y sp ram ((List.range m).foldl (drawRowStep x y sp ram) (d, c)) m := by
      rw [List.range_succ, List.foldl_append, List.foldl_cons, List.foldl_nil]
    set F := (List.range m).foldl (drawRowStep x y sp ram) (d, c) with hF
    rw [hsplit]
    have hrowF : drawRowStep x y sp ram F m
        = (List.range 8).foldl (drawBitStep x y m (byte_to_bools (ram (sp + m)))) (F.1, F.2) := rfl
    rw [hrowF]
    obtain ⟨hr1, hr2, hr3, hr4⟩ :=
      drawRow_spec x y m (byte_to_bools (ram (sp + m))) 8 (by norm_num) F.1 F.2
    have hdisty : ∀ yo, yo < m → (y + yo) % 32 ≠ (y + m) % 32 := by
      intro yo hyo
      have h32 : m < 32 := by omega
      omega
    have hcell : ∀ xo, F.1 ((x + xo) % 64) ((y + m) % 32) = d ((x + xo) % 64) ((y + m) % 32) :=
      fun xo => ih1 _ _ (fun yo' hyo' xo' hxo' hc => hdisty yo' hyo' hc.2.2)
    refine ⟨?_, ?_, ?_, ?_⟩
    · intro a b hun
      rw [hr1 a b (fun xo hxo => hun m (by omega) xo hxo)]
      exact ih1 a b (fun yo hyo xo hxo => hun yo (by omega) xo hxo)
    · intro yo hyo xo hxo hbit
      rcases Nat.lt_succ_iff_lt_or_eq.mp hyo with hlt | heq
      · have hpass : ∀ xo', xo' < 8 →
            ¬((byte_to_bools (ram (sp + m))).getD xo' false = true ∧
              (x + xo') % 64 = (x + xo) % 64 ∧ (y + m) % 32 = (y + yo) % 32) :=
          fun xo' hxo' hc => hdisty yo hlt hc.2.2.symm
        rw [hr1 _ _ hpass]
        exact ih2 yo hlt xo hxo hbit
      · subst heq
        rw [hr2 xo hxo hbit]
        congr 1
        exact hcell xo
    · rw [hr3, ih3]
      constructor
      · rintro ((hc | ⟨yo, hyo, xo, hxo, hb2, hd2⟩) | ⟨xo, hxo, hb2, hd2⟩)
        · exact Or.inl hc
        · exact Or.inr ⟨yo, by omega, xo, hxo, hb2, hd2⟩
        · rw [hcell xo] at hd2
          exact Or.inr ⟨m, by omega, xo, hxo, hb2, hd2⟩
      · rintro (hc | ⟨yo, hyo, xo, hxo, hb2, hd2⟩)
        · exact Or.inl (Or.inl hc)
        · rcases Nat.lt_succ_iff_lt_or_eq.mp hyo with hlt | heq
          · exact Or.inl (Or.inr ⟨yo, hlt, xo, hxo, hb2, hd2⟩)
          · subst heq
            exact Or.inr ⟨xo, hxo, hb2, by rw [hcell xo]; exact hd2⟩
    · rcases hr4 with h | h
      · rw [h]; exact ih4
      · rw [h]; exact Or.inr rfl

/-- The `n` field of a decoded instruction is a nibble. -/
lemma decode_n_lt (a b : Nat) : (Instruction.decode a b).n < 16 := by
  have h := (decode_fields a b).2.2.2.1
  rw [h]; omega

/-- The `0xD` arm of `Emulator::cycle`, written out. -/
lemma cycle_draw_eq (e : Emulator) (rnd : Nat) (hop : e.fetched.opcode = 0xD) :
    e.cycle rnd = .ok (Emulator.mk e.ram
      (setFn e.registers 0xF (drawSprite (e.registers e.fetched.x) (e.registers e.fetched.y)
        e.stack_pointer e.fetched.n e.ram (e.display, 0)).2)
      (e.program_counter + 2) e.call_stack e.stack_pointer
      (drawSprite (e.registers e.fetched.x) (e.registers e.fetched.y)
        e.stack_pointer e.fetched.n e.ram (e.display, 0)).1
      e.keys e.timer e.sound_timer e.key_block, true) := by
  simp only [Emulator.cycle, hop]
  norm_num

/-- C1: for every draw instruction (opcode `0xD`), `Emulator::cycle` sets
the shared flag register `0xF` to `1` exactly when some set sprite bit
toggled a framebuffer cell from on to off (i.e. its wrapped target cell
was on in the pre-draw display), and to `0` otherwise (the flag is always
one of `0`/`1`, and it is `1` iff such a toggle exists). -/
theorem draw_sets_collision_flag (e : Emulator) (rnd : Nat)
    (hop : e.fetched.opcode = 0xD) :
    ∃ e', e.cycle rnd = .ok (e', true) ∧
      (e'.registers 0xF = 0 ∨ e'.registers 0xF = 1) ∧
      (e'.registers 0xF = 1 ↔ ∃ yo, yo < e.fetched.n ∧ ∃ xo, xo < 8 ∧
        (byte_to_bools (e.ram (e.stack_pointer + yo))).getD xo false = true ∧
        e.display ((e.registers e.fetched.x + xo) % 64) ((e.registers e.fetched.y + yo) % 32) = true) := by
  have hn32 : e.fetched.n ≤ 32 := le_of_lt (lt_of_lt_of_le (decode_n_lt _ _) (by norm_num))
  obtain ⟨h1, h2, h3, h4⟩ := drawSprite_fold_spec (e.registers e.fetched.x)
    (e.registers e.fetched.y) e.stack_pointer e.ram e.fetched.n hn32 e.display 0
  refine ⟨_, cycle_draw_eq e rnd hop, ?_, ?_⟩
  · show setFn e.registers 0xF
        ((List.range e.fetched.n).foldl (drawRowStep (e.registers e.fetched.x)
          (e.registers e.fetched.y) e.stack_pointer e.ram) (e.display, 0)).2 0xF = 0 ∨
      setFn e.registers 0xF
        ((List.range e.fetched.n).foldl (drawRowStep (e.registers e.fetched.x)
          (e.registers e.fetched.y) e.stack_pointer e.ram) (e.display, 0)).2 0xF = 1
    simp only [setFn]
    norm_num
    exact h4
  · show setFn e.registers 0xF
        ((List.range e.fetched.n).foldl (drawRowStep (e.registers e.fetched.x)
          (e.registers e.fetched.y) e.stack_pointer e.ram) (e.display, 0)).2 0xF = 1 ↔ _
    simp only [setFn]
    norm_num
    rw [h3]
    constructor
    · rintro (hc | hex)
      · exact absurd hc (by norm_num)
      · simpa using hex
    · exact fun hex => Or.inr (by simpa using hex)

/-- C1 witness: the all-set 8x1 sprite drawn on cleared cells reports
flag 0; drawn again over its own pixels it reports flag 1; chaining the
two cycles of `c1emuA` end-to-end gives flags (0, 1) and turns the cells
back off. -/
theorem draw_sets_collision_flag_witness :
    ((c1emuA.cycle 0).map (fun p => (p.1.registers 0xF, p.2)) = .ok (0, true))
    ∧ ((c1emuB.cycle 0).map (fun p => (p.1.registers 0xF, p.2)) = .ok (1, true))
    ∧ ((c1emuA.cycle 0).bind (fun p => (p.1.cycle 0).map
        (fun q => (p.1.registers 0xF, q.1.registers 0xF, q.1.display 0 0, q.1.display 7 0)))
        = .ok (0, 1, false, false)) := by
  refine ⟨?_, ?_, by decide⟩
  · obtain ⟨e', hc, hor, hiff⟩ := draw_sets_collision_flag c1emuA 0 (by decide)
    have hflag : e'.registers 0xF = 0 := by
      rcases hor with h0 | h1
      · exact h0
      · exfalso
        obtain ⟨yo, hyo, xo, hxo, hbit, hdisp⟩ := hiff.mp h1
        exact absurd hdisp (by simp [c1emuA])
    rw [hc]
    simp only [Except.map]
    rw [hflag]
  · obtain ⟨e', hc, hor, hiff⟩ := draw_sets_collision_flag c1emuB 0 (by decide)
    have hflag : e'.registers 0xF = 1 :=
      hiff.mpr ⟨0, by decide, 0, by decide, by decide, by decide⟩
    rw [hc]
    simp only [Except.map]
    rw [hflag]

/-- C6: every draw's effect lands exactly on the wrapped coordinates
`(x + xo) % 64`, `(y + yo) % 32`: cells outside the 64x32 grid are never
touched, cells away from the wrapped footprint are unchanged, and each set
sprite bit toggles its wrapped target cell. -/
theorem draw_wraps_modulo (e : Emulator) (rnd : Nat) (hop : e.fetched.opcode = 0xD) :
    ∃ e', e.cycle rnd = .ok (e', true) ∧
      (∀ a b, 64 ≤ a ∨ 32 ≤ b → e'.display a b = e.display a b) ∧
      (∀ a b, (∀ yo, yo < e.fetched.n → ∀ xo, xo < 8 →
          ¬((byte_to_bools (e.ram (e.stack_pointer + yo))).getD xo false = true ∧
            (e.registers e.fetched.x + xo) % 64 = a ∧ (e.registers e.fetched.y + yo) % 32 = b)) →
        e'.display a b = e.display a b) ∧
      (∀ yo, yo < e.fetched.n → ∀ xo, xo < 8 →
        (byte_to_bools (e.ram (e.stack_pointer + yo))).getD xo false = true →
        e'.display ((e.registers e.fetched.x + xo) % 64) ((e.registers e.fetched.y + yo) % 32)
          = ! e.display ((e.registers e.fetched.x + xo) % 64) ((e.registers e.fetched.y + yo) % 32)) := by
  have hn32 : e.fetched.n ≤ 32 := le_of_lt (lt_of_lt_of_le (decode_n_lt _ _) (by norm_num))
  obtain ⟨h1, h2, h3, h4⟩ := drawSprite_fold_spec (e.registers e.fetched.x)
    (e.registers e.fetched.y) e.stack_pointer e.ram e.fetched.n hn32 e.display 0
  refine ⟨_, cycle_draw_eq e rnd hop, ?_, ?_, ?_⟩
  · intro a b hab
    apply h1
    intro yo hyo xo hxo hc
    have hx64 : (e.registers e.fetched.x + xo) % 64 < 64 := Nat.mod_lt _ (by norm_num)
    have hy32 : (e.registers e.fetched.y + yo) % 32 < 32 := Nat.mod_lt _ (by norm_num)
    rcases hab with ha | hb
    · omega
    · omega
  · intro a b hun
    exact h1 a b hun
  · intro yo hyo xo hxo hbit
    exact h2 yo hyo xo hxo hbit

/-- C6 witness: at x = 60 the row's left bits land on columns 60-63 and
its right bits wrap to columns 0-3; columns past the footprint and cells
outside the 64x32 grid are untouched. -/
theorem draw_wraps_modulo_witness :
    (c6emu.cycle 0).map (fun p => (p.1.display 60 0, p.1.display 63 0, p.1.display 1 0,
      p.1.display 3 0, p.1.display 4 0, p.1.display 64 0, p.1.display 0 32))
      = .ok (true, true, true, false, false, false, false) := by
  obtain ⟨e', hc, hout, hunch, htog⟩ := draw_wraps_modulo c6emu 0 (by decide)
  have h60 : e'.display 60 0 = true :=
    ((htog 0 (by decide) 0 (by decide) (by decide)).trans (by decide) : _)
  have h63 : e'.display 63 0 = true :=
    ((htog 0 (by decide) 3 (by decide) (by decide)).trans (by decide) : _)
  have h1 : e'.display 1 0 = true :=
    ((htog 0 (by decide) 5 (by decide) (by decide)).trans (by decide) : _)
  have h3 : e'.display 3 0 = false := (hunch 3 0 (by decide)).trans (by decide)
  have h4 : e'.display 4 0 = false := (hunch 4 0 (by decide)).trans (by decide)
  have h64 : e'.display 64 0 = false := (hout 64 0 (Or.inl (by norm_num))).trans (by decide)
  have h32 : e'.display 0 32 = false := (hout 0 32 (Or.inr (by norm_num))).trans (by decide)
  rw [hc]
  simp only [Except.map]
  rw [h60, h63, h1, h3, h4, h64, h32]

/-- Evaluating the register-store loop of `0xF`/`0x55`: address `a` holds
`registers[a - sp]` when `sp ≤ a < sp + k`, and its old value otherwise. -/
lemma store_fold_get (regs ram0 : Nat → Nat) (sp : Nat) :
    ∀ (k : Nat) (a : Nat),
      ((List.range k).foldl (fun r j => setFn r (sp + j) (regs j)) ram0) a
        = if sp ≤ a ∧ a < sp + k then regs (a - sp) else ram0 a := by
  intro k
  induction k with
  | zero =>
    intro a
    rw [List.range_zero, List.foldl_nil, if_neg (by omega)]
  | succ k ih =>
    intro a
    rw [List.range_succ, List.foldl_append, List.foldl_cons, List.foldl_nil]
    simp only [setFn]
    by_cases ha : a = sp + k
    · rw [if_pos ha, if_pos (by omega)]
      rw [show a - sp = k from by omega]
    · rw [if_neg ha, ih a]
      by_cases hin : sp ≤ a ∧ a < sp + k
      · rw [if_pos hin, if_pos (by omega)]
      · rw [if_neg hin, if_neg (by omega)]

/-- Evaluating the register-load loop of `0xF`/`0x65`: register `r` holds
`ram[sp + r]` when `r < k`, and its old value otherwise. -/
lemma load_fold_get (ram regs0 : Nat → Nat) (sp : Nat) :
    ∀ (k : Nat) (r : Nat),
      ((List.range k).foldl (fun g j => setFn g j (ram (sp + j))) regs0) r
        = if r < k then ram (sp + r) else regs0 r := by
  intro k
  induction k with
  | zero =>
    intro r
    rw [List.range_zero, List.foldl_nil, if_neg (by omega)]
  | succ k ih =>
    intro r
    rw [List.range_succ, List.foldl_append, List.foldl_cons, List.foldl_nil]
    simp only [setFn]
    by_cases hr : r = k
    · rw [if_pos hr, if_pos (by omega), hr]
    · rw [if_neg hr, ih r]
      by_cases hin : r < k
      · rw [if_pos hin, if_pos (by omega)]
      · rw [if_neg hin, if_neg (by omega)]

/-- The `0xF`/`0x55` (register store) arm of `Emulator::cycle`. -/
lemma cycle_store_eq (e : Emulator) (rnd : Nat)
    (hop : e.fetched.opcode = 0xF) (hb : e.fetched.byte = 0x55) :
    e.cycle rnd = .ok (Emulator.mk
      ((List.range (e.fetched.x + 1)).foldl
        (fun r j => setFn r (e.stack_pointer + j) (e.registers j)) e.ram)
      e.registers (e.program_counter + 2) e.call_stack e.stack_pointer
      e.display e.keys e.timer e.sound_timer e.key_block, false) := by
  simp only [Emulator.cycle, hop, hb]
  norm_num

/-- The `0xF`/`0x65` (register load) arm of `Emulator::cycle`. -/
lemma cycle_load_eq (e : Emulator) (rnd : Nat)
    (hop : e.fetched.opcode = 0xF) (hb : e.fetched.byte = 0x65) :
    e.cycle rnd = .ok (Emulator.mk e.ram
      ((List.range (e.fetched.x + 1)).foldl
        (fun g j => setFn g j (e.ram (e.stack_pointer + j))) e.registers)
      (e.program_counter + 2) e.call_stack e.stack_pointer
      e.display e.keys e.timer e.sound_timer e.key_block, false) := by
  simp only [Emulator.cycle, hop, hb]
  norm_num

/-- C5: `0xF`/`0x55` stores exactly registers `0..=x` (x+1 bytes) to RAM
at the address register, leaving all registers and all other RAM cells
unchanged; `0xF`/`0x65` loads exactly registers `0..=x` from RAM at the
address register, leaving RAM and the higher registers unchanged. -/
theorem store_load_registers_range (e : Emulator) (rnd : Nat)
    (hop : e.fetched.opcode = 0xF) :
    ((e.fetched.byte = 0x55) → ∃ e', e.cycle rnd = .ok (e', false) ∧
      (∀ r, e'.registers r = e.registers r) ∧
      (∀ a, e'.ram a = if e.stack_pointer ≤ a ∧ a ≤ e.stack_pointer + e.fetched.x
        then e.registers (a - e.stack_pointer) else e.ram a))
    ∧ ((e.fetched.byte = 0x65) → ∃ e', e.cycle rnd = .ok (e', false) ∧
      (∀ a, e'.ram a = e.ram a) ∧
      (∀ r, e'.registers r = if r ≤ e.fetched.x then e.ram (e.stack_pointer + r)
        else e.registers r)) := by
  constructor
  · intro hb
    refine ⟨_, cycle_store_eq e rnd hop hb, fun r => rfl, ?_⟩
    intro a
    show ((List.range (e.fetched.x + 1)).foldl
      (fun r j => setFn r (e.stack_pointer + j) (e.registers j)) e.ram) a = _
    rw [store_fold_get]
    by_cases hin : e.stack_pointer ≤ a ∧ a < e.stack_pointer + (e.fetched.x + 1)
    · rw [if_pos hin, if_pos (by omega)]
    · rw [if_neg hin, if_neg (by omega)]
  · intro hb
    refine ⟨_, cycle_load_eq e rnd hop hb, fun a => rfl, ?_⟩
    intro r
    show ((List.range (e.fetched.x + 1)).foldl
      (fun g j => setFn g j (e.ram (e.stack_pointer + j))) e.registers) r = _
    rw [load_fold_get]
    by_cases hin : r < e.fetched.x + 1
    · rw [if_pos hin, if_pos (by omega)]
    · rw [if_neg hin, if_neg (by omega)]

/-- C5 witness: `0xF255` writes 11, 22, 33 to `0x300..0x302`, leaves
`0x303` and the registers alone; `0xF165` loads 7, 8 into registers 0, 1
and leaves register 2 and RAM alone. -/
theorem store_load_registers_range_witness :
    ((c5emuS.cycle 0).map (fun p => (p.1.ram 0x300, p.1.ram 0x301, p.1.ram 0x302,
      p.1.ram 0x303, p.1.registers 2, p.2)) = .ok (11, 22, 33, 0, 33, false))
    ∧ ((c5emuL.cycle 0).map (fun p => (p.1.registers 0, p.1.registers 1, p.1.registers 2,
      p.1.ram 0x300, p.2)) = .ok (7, 8, 99, 7, false)) := by
  constructor
  · obtain ⟨e', hc, hregs, hram⟩ := (store_load_registers_range c5emuS 0 (by decide)).1 (by decide)
    have h0 : e'.ram 0x300 = 11 := (hram 0x300).trans (by decide)
    have h1 : e'.ram 0x301 = 22 := (hram 0x301).trans (by decide)
    have h2 : e'.ram 0x302 = 33 := (hram 0x302).trans (by decide)
    have h3 : e'.ram 0x303 = 0 := (hram 0x303).trans (by decide)
    have h4 : e'.registers 2 = 33 := (hregs 2).trans (by decide)
    rw [hc]
    simp only [Except.map]
    rw [h0, h1, h2, h3, h4]
  · obtain ⟨e', hc, hram, hregs⟩ := (store_load_registers_range c5emuL 0 (by decide)).2 (by decide)
    have h0 : e'.registers 0 = 7 := (hregs 0).trans (by decide)
    have h1 : e'.registers 1 = 8 := (hregs 1).trans (by decide)
    have h2 : e'.registers 2 = 99 := (hregs 2).trans (by decide)
    have h3 : e'.ram 0x300 = 7 := (hram 0x300).trans (by decide)
    rw [hc]
    simp only [Except.map]
    rw [h0, h1, h2, h3]

/-- The `0x8`/`n=5` (SUB RX-RY) arm of `Emulator::cycle`: flag first,
result second. -/
lemma cycle_sub_eq (e : Emulator) (rnd : Nat)
    (hop : e.fetched.opcode = 0x8) (hn : e.fetched.n = 0x5) :
    e.cycle rnd = .ok (Emulator.mk e.ram
      (setFn (setFn e.registers 0xF
          (if e.registers e.fetched.x < e.registers e.fetched.y then 0 else 1))
        e.fetched.x ((e.registers e.fetched.x + 256 - e.registers e.fetched.y) % 256))
      (e.program_counter + 2) e.call_stack e.stack_pointer
      e.display e.keys e.timer e.sound_timer e.key_block, false) := by
  simp only [Emulator.cycle, hop, hn]
  norm_num

/-- C4: the ALU subtract `0x8`/`n=5` stores `register[x] - register[y]`
into `register[x]` with wrap-around modulo 256 and sets the flag register
`0xF` to 1 exactly when there is no borrow (`register[y] ≤ register[x]`,
equality included), 0 otherwise.  (The flag part needs `x ≠ 0xF`, since
for `x = 0xF` the result overwrites the flag; see the
flag-before-result property.) -/
theorem alu_sub_result_and_flag (e : Emulator) (rnd : Nat)
    (hop : e.fetched.opcode = 0x8) (hn : e.fetched.n = 0x5)
    (hxne : e.fetched.x ≠ 0xF)
    (hxb : e.registers e.fetched.x < 256) (hyb : e.registers e.fetched.y < 256) :
    ∃ e', e.cycle rnd = .ok (e', false)
      ∧ e'.registers e.fetched.x
          = (e.registers e.fetched.x + 256 - e.registers e.fetched.y) % 256
      ∧ ((e'.registers e.fetched.x : ZMod 256)
          = (e.registers e.fetched.x : ZMod 256) - (e.registers e.fetched.y : ZMod 256))
      ∧ e'.registers 0xF
          = (if e.registers e.fetched.y ≤ e.registers e.fetched.x then 1 else 0) := by
  refine ⟨_, cycle_sub_eq e rnd hop hn, ?_, ?_, ?_⟩
  · show setFn (setFn e.registers 0xF _) e.fetched.x _ e.fetched.x = _
    simp [setFn]
  · show ((setFn (setFn e.registers 0xF _) e.fetched.x
      ((e.registers e.fetched.x + 256 - e.registers e.fetched.y) % 256) e.fetched.x : Nat) : ZMod 256) = _
    simp only [setFn]
    norm_num
    rw [Nat.cast_sub (by omega), Nat.cast_add]
    have h256 : ((256 : Nat) : ZMod 256) = 0 := by
      exact_mod_cast ZMod.natCast_self 256
    rw [h256]
    ring
  · show setFn (setFn e.registers 0xF _) e.fetched.x _ 0xF = _
    simp only [setFn]
    rw [if_neg (fun h => hxne h.symm)]
    norm_num
    by_cases hlt : e.registers e.fetched.x < e.registers e.fetched.y
    · rw [if_pos hlt, if_neg (by omega)]
    · rw [if_neg hlt, if_pos (by omega)]

/-- C4 witness: 5 - 3 gives 2 with flag 1 (no borrow); 3 - 5 gives 0xFE
with flag 0 (borrow). -/
theorem alu_sub_result_and_flag_witness :
    ((c4emuA.cycle 0).map (fun p => (p.1.registers 0, p.1.registers 0xF, p.2))
      = .ok (0x02, 1, false))
    ∧ ((c4emuB.cycle 0).map (fun p => (p.1.registers 0, p.1.registers 0xF, p.2))
      = .ok (0xFE, 0, false)) := by
  constructor
  · obtain ⟨e', hc, hres, hz, hflag⟩ := alu_sub_result_and_flag c4emuA 0
      (by decide) (by decide) (by decide) (by decide) (by decide)
    have h0 : e'.registers 0 = 2 := hres.trans (by decide)
    have hF : e'.registers 0xF = 1 := hflag.trans (by decide)
    rw [hc]
    simp only [Except.map]
    rw [h0, hF]
  · obtain ⟨e', hc, hres, hz, hflag⟩ := alu_sub_result_and_flag c4emuB 0
      (by decide) (by decide) (by decide) (by decide) (by decide)
    have h0 : e'.registers 0 = 0xFE := hres.trans (by decide)
    have hF : e'.registers 0xF = 0 := hflag.trans (by decide)
    rw [hc]
    simp only [Except.map]
    rw [h0, hF]

/-- The `0x8`/`n=4` (ADD) arm of `Emulator::cycle`: flag first, result second. -/
lemma cycle_add_eq (e : Emulator) (rnd : Nat)
    (hop : e.fetched.opcode = 0x8) (hn : e.fetched.n = 0x4) :
    e.cycle rnd = .ok (Emulator.mk e.ram
      (setFn (setFn e.registers 0xF
          (if 256 ≤ e.registers e.fetched.x + e.registers e.fetched.y then 1 else 0))
        e.fetched.x ((e.registers e.fetched.x + e.registers e.fetched.y) % 256))
      (e.program_counter + 2) e.call_stack e.stack_pointer
      e.display e.keys e.timer e.sound_timer e.key_block, false) := by
  simp only [Emulator.cycle, hop, hn]
  norm_num

/-- The `0x8`/`n=6` (SHR) arm of `Emulator::cycle`: flag first, result second. -/
lemma cycle_shr_eq (e : Emulator) (rnd : Nat)
    (hop : e.fetched.opcode = 0x8) (hn : e.fetched.n = 0x6) :
    e.cycle rnd = .ok (Emulator.mk e.ram
      (setFn (setFn e.registers 0xF (e.registers e.fetched.x &&& 1))
        e.fetched.x (e.registers e.fetched.x >>> 1))
      (e.program_counter + 2) e.call_stack e.stack_pointer
      e.display e.keys e.timer e.sound_timer e.key_block, false) := by
  simp only [Emulator.cycle, hop, hn]
  norm_num

/-- The `0x8`/`n=7` (SUB RY-RX) arm of `Emulator::cycle`: flag first,
result second. -/
lemma cycle_subn_eq (e : Emulator) (rnd : Nat)
    (hop : e.fetched.opcode = 0x8) (hn : e.fetched.n = 0x7) :
    e.cycle rnd = .ok (Emulator.mk e.ram
      (setFn (setFn e.registers 0xF
          (if e.registers e.fetched.y < e.registers e.fetched.x then 0 else 1))
        e.fetched.x ((e.registers e.fetched.y + 256 - e.registers e.fetched.x) % 256))
      (e.program_counter + 2) e.call_stack e.stack_pointer
      e.display e.keys e.timer e.sound_timer e.key_block, false) := by
  simp only [Emulator.cycle, hop, hn]
  norm_num

/-- The `0x8`/`n=0xE` (SHL) arm of `Emulator::cycle`: flag first, result second. -/
lemma cycle_shl_eq (e : Emulator) (rnd : Nat)
    (hop : e.fetched.opcode = 0x8) (hn : e.fetched.n = 0xE) :
    e.cycle rnd = .ok (Emulator.mk e.ram
      (setFn (setFn e.registers 0xF
          ((e.registers e.fetched.x &&& (1 <<< 7)) >>> 7))
        e.fetched.x ((e.registers e.fetched.x <<< 1) % 256))
      (e.program_counter + 2) e.call_stack e.stack_pointer
      e.display e.keys e.timer e.sound_timer e.key_block, false) := by
  simp only [Emulator.cycle, hop, hn]
  norm_num

/-- C10: in the flag-setting ALU arms (`0x8` with `n` = 4, 5, 6, 7, 0xE)
the flag register `0xF` is written before the result; hence when the
instruction's `x` selector is `0xF`, the final value of register `0xF` is
the arithmetic result, not the flag. -/
theorem alu_flag_written_before_result (e : Emulator) (rnd : Nat)
    (hop : e.fetched.opcode = 0x8) (hx : e.fetched.x = 0xF) :
    ((e.fetched.n = 0x4) → ∃ e', e.cycle rnd = .ok (e', false) ∧
      e'.registers 0xF = (e.registers 0xF + e.registers e.fetched.y) % 256)
    ∧ ((e.fetched.n = 0x5) → ∃ e', e.cycle rnd = .ok (e', false) ∧
      e'.registers 0xF = (e.registers 0xF + 256 - e.registers e.fetched.y) % 256)
    ∧ ((e.fetched.n = 0x6) → ∃ e', e.cycle rnd = .ok (e', false) ∧
      e'.registers 0xF = e.registers 0xF / 2)
    ∧ ((e.fetched.n = 0x7) → ∃ e', e.cycle rnd = .ok (e', false) ∧
      e'.registers 0xF = (e.registers e.fetched.y + 256 - e.registers 0xF) % 256)
    ∧ ((e.fetched.n = 0xE) → ∃ e', e.cycle rnd = .ok (e', false) ∧
      e'.registers 0xF = (e.registers 0xF * 2) % 256) := by
  refine ⟨?_, ?_, ?_, ?_, ?_⟩
  · intro hn
    refine ⟨_, cycle_add_eq e rnd hop hn, ?_⟩
    show setFn (setFn e.registers 0xF _) e.fetched.x _ 0xF = _
    rw [hx]
    simp [setFn]
  · intro hn
    refine ⟨_, cycle_sub_eq e rnd hop hn, ?_⟩
    show setFn (setFn e.registers 0xF _) e.fetched.x _ 0xF = _
    rw [hx]
    simp [setFn]
  · intro hn
    refine ⟨_, cycle_shr_eq e rnd hop hn, ?_⟩
    show setFn (setFn e.registers 0xF _) e.fetched.x _ 0xF = _
    rw [hx]
    simp only [setFn]
    norm_num
    rw [Nat.shiftRight_eq_div_pow]
  · intro hn
    refine ⟨_, cycle_subn_eq e rnd hop hn, ?_⟩
    show setFn (setFn e.registers 0xF _) e.fetched.x _ 0xF = _
    rw [hx]
    simp [setFn]
  · intro hn
    refine ⟨_, cycle_shl_eq e rnd hop hn, ?_⟩
    show setFn (setFn e.registers 0xF _) e.fetched.x _ 0xF = _
    rw [hx]
    simp only [setFn]
    norm_num
    rw [Nat.shiftLeft_eq]

/-- C10 witness: after `0x8F14` with RF = 200, R1 = 100, register F holds
`(200 + 100) % 256 = 44` — the arithmetic result, not the overflow flag. -/
theorem alu_flag_written_before_result_witness :
    (c10emu.cycle 0).map (fun p => (p.1.registers 0xF, p.2)) = .ok (44, false) := by
  obtain ⟨e', hc, hres⟩ := (alu_flag_written_before_result c10emu 0 (by decide) (by decide)).1
    (by decide)
  have hF : e'.registers 0xF = 44 := hres.trans (by decide)
  rw [hc]
  simp only [Except.map]
  rw [hF]

/-- The RET (`0x0`/`0xEE`) arm of `Emulator::cycle` on an empty call
stack: `pop().unwrap()` panics, modelled as `StackUnderflow`. -/
lemma cycle_ret_underflow (e : Emulator) (rnd : Nat)
    (hop : e.fetched.opcode = 0x0) (hb : e.fetched.byte = 0xEE)
    (hcs : e.call_stack = []) :
    e.cycle rnd = .error .StackUnderflow := by
  simp only [Emulator.cycle, hop, hb, hcs]
  norm_num

/-- C8: executing RET (`0x0` + byte `0xEE`) with an empty call stack
fails with `StackUnderflow` — the cycle produces no successor state at
all, so the program counter is never set to a defaulted value — and
`Stack::pop` on an empty stack likewise fails with `StackUnderflow`
rather than silently recovering. -/
theorem ret_on_empty_stack_underflow (e : Emulator) (rnd : Nat)
    (hop : e.fetched.opcode = 0x0) (hb : e.fetched.byte = 0xEE)
    (hcs : e.call_stack = []) :
    e.cycle rnd = .error EmuError.StackUnderflow
    ∧ (∀ sz : Nat, CP.Stack.pop ⟨[], sz⟩ = .error EmuError.StackUnderflow) :=
  ⟨cycle_ret_underflow e rnd hop hb hcs, fun _ => rfl⟩

/-- C8 witness: the concrete RET-on-empty-stack machine errors with
`StackUnderflow`, and so does popping the concrete empty stack. -/
theorem ret_on_empty_stack_underflow_witness :
    c8emu.cycle 0 = .error EmuError.StackUnderflow
    ∧ CP.Stack.pop ⟨[], 0⟩ = .error EmuError.StackUnderflow := by
  have h := ret_on_empty_stack_underflow c8emu 0 (by decide) (by decide) rfl
  exact ⟨h.1, h.2 0⟩

/-- C7: both decoders are pure total functions whose fields re-combine to
the original 16-bit instruction word: opcode is the top nibble, `x`, `y`,
`n` the following nibbles, the immediate byte is the low byte and the
address field the low 12 bits. -/
theorem decode_roundtrip (hb lb : Nat) (hhb : hb < 256) (hlb : lb < 256) :
    ((Instruction.decode hb lb).opcode * 0x1000 + (Instruction.decode hb lb).x * 0x100
      + (Instruction.decode hb lb).y * 0x10 + (Instruction.decode hb lb).n = hb * 0x100 + lb)
    ∧ ((Instruction.decode hb lb).opcode * 0x1000 + (Instruction.decode hb lb).addr
      = hb * 0x100 + lb)
    ∧ ((Instruction.decode hb lb).byte = lb)
    ∧ ((Instruction.decode hb lb).full = hb * 0x100 + lb)
    ∧ ((CP.Instruction.from_bytes hb lb).opcode * 0x1000 + (CP.Instruction.from_bytes hb lb).x * 0x100
      + (CP.Instruction.from_bytes hb lb).y * 0x10 + (CP.Instruction.from_bytes hb lb).n
      = hb * 0x100 + lb)
    ∧ ((CP.Instruction.from_bytes hb lb).opcode * 0x1000 + (CP.Instruction.from_bytes hb lb).nnn
      = hb * 0x100 + lb)
    ∧ ((CP.Instruction.from_bytes hb lb).nn = lb) := by
  obtain ⟨o1, x1, y1, n1, b1, a1, f1⟩ := decode_fields hb lb
  obtain ⟨o2, x2, y2, n2, b2, a2⟩ := from_bytes_fields hb lb
  have hc := combined_eq hb lb hlb
  refine ⟨?_, ?_, b1, ?_, ?_, ?_, b2⟩
  · rw [o1, x1, y1, n1, hc]; omega
  · rw [o1, a1, hc]; omega
  · rw [f1, hc]
  · rw [o2, x2, y2, n2]; omega
  · rw [o2, a2, hc]; omega

/-- C7 witness: the round-trip at the concrete byte pair `(0xAB, 0xCD)`. -/
theorem decode_roundtrip_witness :
    (0xAB : Nat) < 256 ∧ (0xCD : Nat) < 256
    ∧ (Instruction.decode 0xAB 0xCD).opcode * 0x1000 + (Instruction.decode 0xAB 0xCD).x * 0x100
      + (Instruction.decode 0xAB 0xCD).y * 0x10 + (Instruction.decode 0xAB 0xCD).n = 0xABCD
    ∧ (CP.Instruction.from_bytes 0xAB 0xCD).opcode * 0x1000
      + (CP.Instruction.from_bytes 0xAB 0xCD).nnn = 0xABCD := by
  refine ⟨by norm_num, by norm_num, ?_, ?_⟩
  · exact ((decode_roundtrip 0xAB 0xCD (by norm_num) (by norm_num)).1).trans (by norm_num)
  · exact ((decode_roundtrip 0xAB 0xCD (by norm_num) (by norm_num)).2.2.2.2.2.1).trans (by norm_num)

/-- C9: for every pair of input values, all register-selector fields of
both decoders are below the 16-entry register file size, and the address
fields are below `0x1000` — so register accesses at decoded selectors are
in bounds. -/
theorem decoded_selectors_in_range (hb lb : Nat) :
    (Instruction.decode hb lb).x < Components.NUM_REGISTERS
    ∧ (Instruction.decode hb lb).y < Components.NUM_REGISTERS
    ∧ (Instruction.decode hb lb).n < Components.NUM_REGISTERS
    ∧ (Instruction.decode hb lb).addr < 0x1000
    ∧ (CP.Instruction.from_bytes hb lb).x < Components.NUM_REGISTERS
    ∧ (CP.Instruction.from_bytes hb lb).y < Components.NUM_REGISTERS
    ∧ (CP.Instruction.from_bytes hb lb).n < Components.NUM_REGISTERS
    ∧ (CP.Instruction.from_bytes hb lb).nnn < 0x1000 := by
  obtain ⟨o1, x1, y1, n1, b1, a1, f1⟩ := decode_fields hb lb
  obtain ⟨o2, x2, y2, n2, b2, a2⟩ := from_bytes_fields hb lb
  refine ⟨?_, ?_, ?_, ?_, ?_, ?_, ?_, ?_⟩
  · rw [x1]; show _ < 16; omega
  · rw [y1]; show _ < 16; omega
  · rw [n1]; show _ < 16; omega
  · rw [a1]; omega
  · rw [x2]; show _ < 16; omega
  · rw [y2]; show _ < 16; omega
  · rw [n2]; show _ < 16; omega
  · rw [a2]; omega

/-- C3 counterexample: the accumulator of `Timers::decrement` is never
reset.  Feeding 16 ms (one tick: the threshold is `1000 / 60 = 16` ms)
and then 0 ms — increments summing to exactly one tick — decrements both
counters TWICE (2 → 0) and leaves the accumulator at 16, whereas the
claim mandates exactly one decrement and an accumulator reset to
`16 - 16 = 0` by threshold subtraction. -/
theorem timers_never_reset_counterexample :
    (CP.Timers.decrement ⟨2, 2, 0⟩ 16 = ⟨1, 1, 16⟩)
    ∧ (CP.Timers.decrement (CP.Timers.decrement ⟨2, 2, 0⟩ 16) 0 = ⟨0, 0, 16⟩) := by
  exact ⟨rfl, rfl⟩

/-- C3 (amended): on every call `Timers::decrement` adds the elapsed
milliseconds to the accumulator and never reduces it; when the
accumulated total has reached the 16 ms threshold both counters are
decremented by exactly 1 on that call, floored at 0, and otherwise they
are untouched.  (Because the accumulator is not reset, every call after
the threshold keeps decrementing.) -/
theorem timers_decrement_amended (d s del dur : Nat) :
    (1000 / 60 ≤ del + dur →
      CP.Timers.decrement ⟨d, s, del⟩ dur = ⟨d - 1, s - 1, del + dur⟩)
    ∧ (del + dur < 1000 / 60 →
      CP.Timers.decrement ⟨d, s, del⟩ dur = ⟨d, s, del + dur⟩) := by
  constructor
  · intro h
    simp only [CP.Timers.decrement]
    rw [if_pos h]
    have h1 : (if d = 0 then 0 else d - 1) = d - 1 := by split <;> omega
    have h2 : (if s = 0 then 0 else s - 1) = s - 1 := by split <;> omega
    rw [h1, h2]
  · intro h
    simp only [CP.Timers.decrement]
    rw [if_neg (by omega)]

/-- C3 witness: a single 16 ms increment from an empty accumulator
decrements 2/2 to 1/1 (and keeps the accumulator at 16); a 5 ms increment
below the threshold leaves the counters alone. -/
theorem timers_decrement_amended_witness :
    (1000 / 60 ≤ 0 + 16) ∧ CP.Timers.decrement ⟨2, 2, 0⟩ 16 = ⟨1, 1, 16⟩
    ∧ (0 + 5 < 1000 / 60) ∧ CP.Timers.decrement ⟨2, 2, 0⟩ 5 = ⟨2, 2, 5⟩ := by
  refine ⟨by norm_num, ?_, by norm_num, ?_⟩
  · exact (timers_decrement_amended 2 2 0 16).1 (by norm_num)
  · exact (timers_decrement_amended 2 2 0 5).2 (by norm_num)

/-- C2 (code bug evidence): the event loop's `KeyBlock` local is
re-created on every iteration (`main.rs:182-185`), so the block requested
by `0xF00A` never takes effect.  With no key held, the invocation after
the key-block instruction still fetches and executes the next
instruction: the program counter moves `0x202 → 0x204` and `0x6105`
writes register 1, where the claim demands the machine busy-wait with the
program counter parked at `0x202`. -/
theorem key_block_does_not_block :
    ((MainLoop.step c2state 0).bind (fun s1 => (MainLoop.step s1 0).map
      (fun s2 => (s1.program_counter, s2.program_counter, s2.registers 1))))
      = .ok (0x202, 0x204, 5) := by
  decide
